import Mathlib

/-!
Shallow embedding of Postgres-Backup-Manager (`src/main.py`) and proofs about
its scheduling, retention-cleaning, backup-job and target-enumeration logic.

Time is modelled in microseconds (the resolution of Python `datetime`);
file modification times and the cleaner's cutoff are modelled in seconds
as `Int`.  Remote interactions (SSH connect, `exec_command`, SCP fetch) are
modelled by an environment record saying how each external call behaves,
and each function returns the ordered list of observable events it performs
together with its outcome, mirroring the Python control flow statement by
statement.
-/

set_option autoImplicit false

namespace PBM

/-! ## Daily-mode scheduling (`modo_diario`, src/main.py lines 140-154)

`now.replace(hour=h, minute=m, second=0, microsecond=0)` keeps the current
day and replaces the time of day; we model an instant as microseconds since
an arbitrary epoch midnight, so "today's midnight" is `(now / usPerDay) * usPerDay`.
-/

/-- Microseconds in one day. -/
def usPerDay : Nat := 86400000000

/-- `now.replace(hour := h, minute := m, second := 0, microsecond := 0)`:
today's occurrence of `h:m`, at microsecond resolution. -/
def todayAt (now h m : Nat) : Nat :=
  (now / usPerDay) * usPerDay + (h * 3600 + m * 60) * 1000000

/-- The `target_time` computed by `modo_diario`: today's `h:m`, pushed to
tomorrow exactly when `now > target_time` (source: `if now > target_time:
target_time += timedelta(days=1)`). -/
def modo_diario_target (now h m : Nat) : Nat :=
  let t := todayAt now h m
  if now > t then t + usPerDay else t

/-- `delay = (target_time - now).total_seconds()`, kept in microseconds as
a signed quantity so that nonnegativity is a statement, not a convention. -/
def modo_diario_delay (now h m : Nat) : Int :=
  (modo_diario_target now h m : Int) - (now : Int)

/-! ## Interval-mode scheduling (`modo_por_intervalo`, src/main.py lines 168-183) -/

/-- One observable action of the interval-mode scheduler loop. -/
inductive SchedAct where
  | runCycle
  | sleep (seconds : Nat)
  deriving DecidableEq, Repr

/-- `intervalo_segundos = horas * 3600 + minutos * 60` (src/main.py line 170). -/
def intervalo_segundos (horas minutos : Nat) : Nat :=
  horas * 3600 + minutos * 60

/-- The first `n` iterations of `modo_por_intervalo`'s `while True:` loop:
each iteration runs a full cycle and then sleeps `intervalo_segundos`.
The loop body is entered immediately, with no sleep before the first cycle. -/
def modo_por_intervalo_sched (horas minutos : Nat) : Nat → List SchedAct
  | 0 => []
  | n + 1 =>
      SchedAct.runCycle :: SchedAct.sleep (intervalo_segundos horas minutos) ::
        modo_por_intervalo_sched horas minutos n

/-! ## Retention cleaner (`clean_old_backups`, src/main.py lines 110-124)

A directory is `none` when `os.path.exists` is false, otherwise the ordered
listing `os.listdir` returns.  `removeOk = false` models `os.remove`
raising (e.g. a permission error); the Python code has no try/except around
the loop, so such an exception escapes `clean_old_backups` at once. -/

/-- One entry of the local backup directory listing. -/
structure FSEntry where
  name : String
  /-- `os.path.isfile` for this entry. -/
  isfile : Bool
  /-- Last-modified time, seconds. -/
  mtime : Int
  /-- Whether `os.remove` succeeds on this entry. -/
  removeOk : Bool
  deriving DecidableEq, Repr

/-- The deletion condition of the loop body: `os.path.isfile(file_path)`
and `file_mtime < cutoff_date`. -/
def stale (cutoff : Int) (e : FSEntry) : Bool :=
  e.isfile && decide (e.mtime < cutoff)

/-- The `for filename in os.listdir(...)` loop. Returns the names actually
removed, in order, and `some name` when `os.remove` raised on `name`
(processing stops there, as the exception propagates). -/
def cleanFiles (cutoff : Int) : List FSEntry → List String × Option String
  | [] => ([], none)
  | e :: rest =>
      if stale cutoff e then
        if e.removeOk then
          let r := cleanFiles cutoff rest
          (e.name :: r.1, r.2)
        else
          ([], some e.name)
      else
        cleanFiles cutoff rest

/-- `clean_old_backups`: no-op when the directory does not exist, otherwise
the deletion loop with `cutoff_date = datetime.now() - timedelta(days=days_to_keep)`. -/
def clean_old_backups (dir : Option (List FSEntry)) (now days_to_keep : Int) :
    List String × Option String :=
  match dir with
  | none => ([], none)
  | some entries => cleanFiles (now - days_to_keep * 86400) entries

/-! ## Backup job (`perform_backup`, src/main.py lines 76-106)

Observable events of one job, in program order.  `ssh.close()` is the
`sessionClose` event; note the source places it only after a successful
SCP transfer, with no `finally`. -/

/-- Observable events performed by `perform_backup` and `list_databases`. -/
inductive Ev where
  /-- `os.makedirs(local_backup_path)` (local destination created). -/
  | mkLocalDir
  /-- `create_ssh_client` returned an open session. -/
  | sessionOpen
  /-- `create_remote_backup_dir` (remote `mkdir -p`). -/
  | remoteMkdir
  /-- `ssh.exec_command(backup_command)` — the remote `pg_dump`. -/
  | execDump
  /-- `ssh.exec_command` of the `psql` catalog listing. -/
  | execList
  /-- `logging.error` of a non-zero exit status together with the stderr text. -/
  | logError
  /-- `scp.get(...)` invoked — the artifact transfer. -/
  | fetch
  /-- `scp.close()`. -/
  | scpClose
  /-- `ssh.close()` — the remote session released. -/
  | sessionClose
  /-- `logging.info` of the successful transfer. -/
  | logSuccess
  /-- `logging.error(...)` inside an `except` block (a caught exception). -/
  | logCaught
  /-- `clean_old_backups` invoked by a mode loop. -/
  | cleanInvoked
  deriving DecidableEq, Repr

/-- Outcome of one `perform_backup` call. -/
inductive JobOutcome where
  /-- Ran to the success log line. -/
  | ok
  /-- Returned early because the dump's exit status was non-zero. -/
  | failedStatus
  /-- An exception inside the `try` block was caught and logged. -/
  | caught
  /-- An exception escaped `perform_backup` (only `os.makedirs` is outside
  the `try`). -/
  | raised
  deriving DecidableEq, Repr

/-- How the external world behaves during one `perform_backup` call. -/
structure JobEnv where
  /-- `os.path.exists(local_backup_path)`. -/
  localDirExists : Bool
  /-- Whether `os.makedirs` succeeds (it runs outside the `try` block). -/
  makedirsOk : Bool
  /-- Whether `create_ssh_client` succeeds. -/
  connectOk : Bool
  /-- Whether `exec_command`/`recv_exit_status` for the dump raises. -/
  execDumpRaises : Bool
  /-- `exit_status` returned for the dump command. -/
  dumpExit : Nat
  /-- Whether `scp.get` succeeds. -/
  fetchOk : Bool
  deriving DecidableEq, Repr

/-- `perform_backup`, traced statement by statement from src/main.py
lines 76-106: local `makedirs` outside the `try`; inside it, SSH connect,
remote `mkdir -p`, the dump command; early `return` (no fetch, no close)
when `exit_status != 0`; otherwise `scp.get`, `scp.close()`, `ssh.close()`,
success log; any exception in the `try` is caught and logged. -/
def perform_backup (env : JobEnv) : List Ev × JobOutcome :=
  if env.localDirExists = false ∧ env.makedirsOk = false then
    ([], JobOutcome.raised)
  else
    let pre : List Ev := if env.localDirExists then [] else [Ev.mkLocalDir]
    if env.connectOk = false then
      (pre ++ [Ev.logCaught], JobOutcome.caught)
    else
      let t1 := pre ++ [Ev.sessionOpen, Ev.remoteMkdir, Ev.execDump]
      if env.execDumpRaises then
        (t1 ++ [Ev.logCaught], JobOutcome.caught)
      else if env.dumpExit ≠ 0 then
        (t1 ++ [Ev.logError], JobOutcome.failedStatus)
      else if env.fetchOk = false then
        (t1 ++ [Ev.fetch, Ev.logCaught], JobOutcome.caught)
      else
        (t1 ++ [Ev.fetch, Ev.scpClose, Ev.sessionClose, Ev.logSuccess],
         JobOutcome.ok)

/-! ## Target enumeration (`list_databases`, src/main.py lines 49-66) -/

/-- How the external world behaves during one `list_databases` call. -/
structure ListEnv where
  /-- Whether `create_ssh_client` succeeds. -/
  connectOk : Bool
  /-- Whether `exec_command`/`recv_exit_status` raises. -/
  execRaises : Bool
  /-- `exit_status` of the listing command. -/
  exitStatus : Nat
  /-- The decoded stdout of the listing command. -/
  stdout : String
  deriving DecidableEq, Repr

/-- Python `str.split()`: split on whitespace runs, discarding empties. -/
def pySplit (s : String) : List String :=
  (s.split Char.isWhitespace).filter (fun w => w ≠ "")

/-- `list_databases`: connect, run the catalog query; on non-zero exit log
the status and stderr and return `[]` (without `ssh.close()`); on success
split stdout, close the session and return the names; any exception is
caught, logged, and `[]` is returned. -/
def list_databases (env : ListEnv) : List Ev × List String :=
  if env.connectOk = false then
    ([Ev.logCaught], [])
  else if env.execRaises then
    ([Ev.sessionOpen, Ev.execList, Ev.logCaught], [])
  else if env.exitStatus ≠ 0 then
    ([Ev.sessionOpen, Ev.execList, Ev.logError], [])
  else
    ([Ev.sessionOpen, Ev.execList, Ev.sessionClose], pySplit env.stdout)

/-! ## One cycle of a mode loop (src/main.py lines 128-137, 155-165, 172-183)

All three modes run the same per-cycle body:
`for db in databases: perform_backup(db, name, subdir); clean_old_backups(db, subdir)`.
`jenv` and `fs` give, per database name, the external behaviour of its job
and the listing of its local destination directory (which already accounts
for the mode's subdirectory).  The Bool result is `true` when an uncaught
exception escaped the loop, aborting the remaining targets. -/

/-- The `for db in databases:` loop shared by `modo_manual`, `modo_diario`
and `modo_por_intervalo`.  Events are tagged with the database they belong
to; `cleanInvoked` marks the call to `clean_old_backups`. -/
def run_targets (now days : Int) (jenv : String → JobEnv)
    (fs : String → Option (List FSEntry)) : List String → List (String × Ev) × Bool
  | [] => ([], false)
  | db :: rest =>
      let r := perform_backup (jenv db)
      let tagged := r.1.map (fun e => (db, e))
      if r.2 = JobOutcome.raised then
        (tagged, true)
      else
        let c := clean_old_backups (fs db) now days
        match c.2 with
        | some _ => (tagged ++ [(db, Ev.cleanInvoked)], true)
        | none =>
            let rec' := run_targets now days jenv fs rest
            (tagged ++ [(db, Ev.cleanInvoked)] ++ rec'.1, rec'.2)

/-- One full cycle: enumerate targets, then run the per-target loop.
Result: listing-phase events, per-target events, abort flag. -/
def run_cycle (now days : Int) (lenv : ListEnv) (jenv : String → JobEnv)
    (fs : String → Option (List FSEntry)) :
    List Ev × List (String × Ev) × Bool :=
  let l := list_databases lenv
  let t := run_targets now days jenv fs l.2
  (l.1, t.1, t.2)

/-! ## Helper lemmas -/

/-- When every entry's `os.remove` succeeds, the loop deletes exactly the
stale regular files, in listing order, and no exception escapes. -/
theorem cleanFiles_all_removeOk (cutoff : Int) (entries : List FSEntry)
    (h : ∀ e ∈ entries, e.removeOk = true) :
    cleanFiles cutoff entries =
      ((entries.filter (stale cutoff)).map FSEntry.name, none) := by
  induction entries with
  | nil => rfl
  | cons e rest ih =>
      have he : e.removeOk = true := h e (List.mem_cons_self e rest)
      have hr : ∀ x ∈ rest, x.removeOk = true :=
        fun x hx => h x (List.mem_cons_of_mem e hx)
      by_cases hs : stale cutoff e = true
      · simp [cleanFiles, hs, he, ih hr, List.filter_cons]
      · simp [cleanFiles, hs, ih hr, List.filter_cons]

/-- The only exception that can escape `perform_backup` is a failing
`os.makedirs`, which runs outside the `try` block; whenever the local
destination exists or is created, the job returns (everything inside the
`try` is caught). -/
theorem perform_backup_not_raised (env : JobEnv)
    (hdir : env.localDirExists = true ∨ env.makedirsOk = true) :
    (perform_backup env).2 ≠ JobOutcome.raised := by
  obtain ⟨ld, mo, co, er, de, fo⟩ := env
  cases ld <;> cases mo <;> cases co <;> cases er <;> cases fo <;>
    by_cases hde : de = 0 <;> simp_all [perform_backup]

/-- `ssh.close()` runs in `perform_backup` exactly on the fully successful
path: directory available, connection up, dump neither raising nor exiting
non-zero, and the SCP fetch succeeding. -/
theorem sessionClose_perform_backup (env : JobEnv) :
    Ev.sessionClose ∈ (perform_backup env).1 ↔
      (env.localDirExists = true ∨ env.makedirsOk = true) ∧
      env.connectOk = true ∧ env.execDumpRaises = false ∧
      env.dumpExit = 0 ∧ env.fetchOk = true := by
  obtain ⟨ld, mo, co, er, de, fo⟩ := env
  cases ld <;> cases mo <;> cases co <;> cases er <;> cases fo <;>
    by_cases hde : de = 0 <;> simp_all [perform_backup]

/-- `ssh.close()` runs in `list_databases` exactly when the listing
command ran and exited with status `0`. -/
theorem sessionClose_list_databases (lenv : ListEnv) :
    Ev.sessionClose ∈ (list_databases lenv).1 ↔
      lenv.connectOk = true ∧ lenv.execRaises = false ∧
      lenv.exitStatus = 0 := by
  obtain ⟨co, er, es, so⟩ := lenv
  cases co <;> cases er <;> by_cases hes : es = 0 <;>
    simp_all [list_databases]

end PBM

namespace PBM

/-! ## Claims -/

/-- Claim C1, counterexample: at the instant exactly equal to today's
`10:00` occurrence (with second and microsecond zero), `modo_diario`
targets **today**, not tomorrow — the source pushes to the next day only
when `now > target_time`, so the next fire time is not strictly after the
current instant in the equality case. -/
theorem modo_diario_equal_instant_counterexample :
    ¬ 36000000000 < todayAt 36000000000 10 0 ∧
    modo_diario_target 36000000000 10 0 = todayAt 36000000000 10 0 ∧
    modo_diario_target 36000000000 10 0 ≠ todayAt 36000000000 10 0 + usPerDay := by
  refine ⟨by decide, rfl, by decide⟩

/-- Claim C1 (amended): for Daily mode, the computed next fire time is
today's `h:m` when `now ≤ today@h:m` (so at exact equality the job fires
immediately with delay `0`), and tomorrow's `h:m` when `now` is strictly
past today's occurrence; the computed sleep delay is always `≥ 0`. -/
theorem modo_diario_next_fire (now h m : Nat) (hh : h < 24) (hm : m < 60) :
    (now ≤ todayAt now h m → modo_diario_target now h m = todayAt now h m) ∧
    (todayAt now h m < now →
      modo_diario_target now h m = todayAt now h m + usPerDay) ∧
    0 ≤ modo_diario_delay now h m := by
  simp only [modo_diario_target, modo_diario_delay, todayAt, usPerDay]
  refine ⟨?_, ?_, ?_⟩ <;> intros <;> split <;> omega

/-- Claim C1 (amended), witness at `now = 1000`, `h:m = 03:30`. -/
theorem modo_diario_next_fire_witness :
    (1000 ≤ todayAt 1000 3 30 → modo_diario_target 1000 3 30 = todayAt 1000 3 30) ∧
    (todayAt 1000 3 30 < 1000 →
      modo_diario_target 1000 3 30 = todayAt 1000 3 30 + usPerDay) ∧
    0 ≤ modo_diario_delay 1000 3 30 :=
  modo_diario_next_fire 1000 3 30 (by decide) (by decide)

/-- Claim C8: interval mode runs its first cycle immediately (the schedule
starts with `runCycle`, with no sleep before it) and between any two
consecutive cycles sleeps exactly `horas * 3600 + minutos * 60` seconds. -/
theorem modo_por_intervalo_sched_spec (horas minutos n : Nat) :
    modo_por_intervalo_sched horas minutos n =
      (List.replicate n
        [SchedAct.runCycle, SchedAct.sleep (horas * 3600 + minutos * 60)]).flatten ∧
    (modo_por_intervalo_sched horas minutos (n + 1)).head? =
      some SchedAct.runCycle := by
  constructor
  · induction n with
    | zero => rfl
    | succ k ih =>
        simp [modo_por_intervalo_sched, intervalo_segundos,
          List.replicate_succ, ih]
  · rfl

/-- Claim C9: `clean_old_backups` on a directory that does not exist
deletes nothing and raises no exception. -/
theorem clean_nonexistent_noop (now days : Int) :
    clean_old_backups none now days = ([], none) := rfl

/-- Claim C2: when every deletion succeeds, a regular file in the cleaned
directory is deleted exactly when its age `now - mtime` strictly exceeds
`days_to_keep` days (`days_to_keep * 86400` seconds); age exactly equal is
retained, and non-regular entries are never deleted. -/
theorem clean_deletes_iff_age_gt (now days : Int) (entries : List FSEntry)
    (hrem : ∀ e ∈ entries, e.removeOk = true)
    (hnd : (entries.map FSEntry.name).Nodup) :
    ∀ e ∈ entries,
      (e.name ∈ (clean_old_backups (some entries) now days).1 ↔
        e.isfile = true ∧ now - e.mtime > days * 86400) := by
  intro e he
  have hrw : clean_old_backups (some entries) now days =
      cleanFiles (now - days * 86400) entries := rfl
  rw [hrw, cleanFiles_all_removeOk _ _ hrem]
  simp only [List.mem_map, List.mem_filter]
  constructor
  · rintro ⟨e', ⟨he', hs⟩, hname⟩
    have heq : e' = e := List.inj_on_of_nodup_map hnd he' he hname
    subst heq
    simp only [stale, Bool.and_eq_true, decide_eq_true_eq] at hs
    exact ⟨hs.1, by omega⟩
  · rintro ⟨hf, hage⟩
    refine ⟨e, ⟨he, ?_⟩, rfl⟩
    simp only [stale, Bool.and_eq_true, decide_eq_true_eq]
    exact ⟨hf, by omega⟩

/-- Claim C2, witness: with `days_to_keep = 4` and `now` ten days past the
epoch, `old.bak` (age 10 days) is deleted while `new.bak` (age 1 day) is
retained. -/
theorem clean_deletes_iff_age_gt_witness :
    ("old.bak" ∈ (clean_old_backups
        (some [⟨"old.bak", true, 0, true⟩, ⟨"new.bak", true, 777600, true⟩])
        864000 4).1 ↔
      true = true ∧ (864000 : Int) - 0 > 4 * 86400) ∧
    ("new.bak" ∈ (clean_old_backups
        (some [⟨"old.bak", true, 0, true⟩, ⟨"new.bak", true, 777600, true⟩])
        864000 4).1 ↔
      true = true ∧ (864000 : Int) - 777600 > 4 * 86400) := by
  constructor
  · exact clean_deletes_iff_age_gt 864000 4 _ (by decide) (by decide)
      ⟨"old.bak", true, 0, true⟩ (by decide)
  · exact clean_deletes_iff_age_gt 864000 4 _ (by decide) (by decide)
      ⟨"new.bak", true, 777600, true⟩ (by decide)

/-- Claim C5, counterexample: with `days_to_keep = 4` and `now = 864000`,
both `"a"` and `"b"` are stale regular files, but `os.remove` fails on
`"a"`; the exception escapes `clean_old_backups` (`some "a"`), nothing is
deleted, and the still-due file `"b"` is never examined — deletion errors
are neither caught nor logged as warnings, and processing does not
continue. -/
theorem clean_error_counterexample :
    stale (864000 - 4 * 86400) ⟨"b", true, 0, true⟩ = true ∧
    clean_old_backups
      (some [⟨"a", true, 0, false⟩, ⟨"b", true, 0, true⟩]) 864000 4 =
      ([], some "a") := by
  refine ⟨by decide, by decide⟩

/-- Claim C5 (amended): a deletion error is an uncaught exception out of
`clean_old_backups`: the loop stops at the failing file, files already
deleted before it stay deleted, and the remaining entries — stale or not —
are not examined or deleted. -/
theorem clean_error_aborts (now days : Int) (pre rest : List FSEntry)
    (e : FSEntry) (hpre : ∀ x ∈ pre, x.removeOk = true)
    (hs : stale (now - days * 86400) e = true) (hrm : e.removeOk = false) :
    clean_old_backups (some (pre ++ e :: rest)) now days =
      ((pre.filter (stale (now - days * 86400))).map FSEntry.name,
        some e.name) := by
  have hrw : clean_old_backups (some (pre ++ e :: rest)) now days =
      cleanFiles (now - days * 86400) (pre ++ e :: rest) := rfl
  rw [hrw]
  induction pre with
  | nil => simp [cleanFiles, hs, hrm]
  | cons x xs ih =>
      have hx : x.removeOk = true := hpre x (List.mem_cons_self x xs)
      have hxs : ∀ y ∈ xs, y.removeOk = true :=
        fun y hy => hpre y (List.mem_cons_of_mem x hy)
      by_cases hsx : stale (now - days * 86400) x = true
      · simp [cleanFiles, hsx, hx, ih hxs rfl, List.filter_cons]
      · simp [cleanFiles, hsx, ih hxs rfl, List.filter_cons]

/-- Claim C5 (amended), witness: one already-deleted file before the
failing one, one untouched stale file after it. -/
theorem clean_error_aborts_witness :
    clean_old_backups
      (some [⟨"z", true, 0, true⟩, ⟨"a", true, 0, false⟩,
        ⟨"b", true, 0, true⟩]) 864000 4 =
      (([⟨"z", true, 0, true⟩].filter (stale (864000 - 4 * 86400))).map
        FSEntry.name, some "a") :=
  clean_error_aborts 864000 4 [⟨"z", true, 0, true⟩] [⟨"b", true, 0, true⟩]
    ⟨"a", true, 0, false⟩ (by decide) (by decide) (by decide)

/-- Claim C3: in every run where the dump command's exit status is observed
non-zero, `perform_backup` logs the status and stderr, returns the failed
outcome, and never invokes the SCP artifact transfer. -/
theorem perform_backup_no_fetch_on_dump_failure (env : JobEnv)
    (hdir : env.localDirExists = true ∨ env.makedirsOk = true)
    (hconn : env.connectOk = true) (hexec : env.execDumpRaises = false)
    (hstatus : env.dumpExit ≠ 0) :
    Ev.fetch ∉ (perform_backup env).1 ∧
    Ev.logError ∈ (perform_backup env).1 ∧
    (perform_backup env).2 = JobOutcome.failedStatus := by
  obtain ⟨ld, mo, co, er, de, fo⟩ := env
  cases ld <;> cases mo <;> simp_all [perform_backup]

/-- Claim C3, witness: a run whose dump exits with status `1`. -/
theorem perform_backup_no_fetch_on_dump_failure_witness :
    Ev.fetch ∉ (perform_backup ⟨true, true, true, false, 1, true⟩).1 ∧
    Ev.logError ∈ (perform_backup ⟨true, true, true, false, 1, true⟩).1 ∧
    (perform_backup ⟨true, true, true, false, 1, true⟩).2 =
      JobOutcome.failedStatus :=
  perform_backup_no_fetch_on_dump_failure ⟨true, true, true, false, 1, true⟩
    (Or.inl rfl) rfl rfl (by decide)

/-- Claim C4, counterexample: when the dump exits with status `1`,
`perform_backup` opens a session but never runs `ssh.close()` (the early
`return` skips it and there is no `finally`); likewise `list_databases`
skips `ssh.close()` when the listing command exits non-zero.  So the
session is not released on every exit path. -/
theorem session_release_counterexample :
    Ev.sessionOpen ∈ (perform_backup ⟨true, true, true, false, 1, true⟩).1 ∧
    Ev.sessionClose ∉ (perform_backup ⟨true, true, true, false, 1, true⟩).1 ∧
    Ev.sessionOpen ∈ (list_databases ⟨true, false, 1, "db1 db2"⟩).1 ∧
    Ev.sessionClose ∉ (list_databases ⟨true, false, 1, "db1 db2"⟩).1 := by
  refine ⟨by decide, by decide, by decide, by decide⟩

/-- Claim C4 (amended): the session is released only on the fully
successful path.  `perform_backup` runs `ssh.close()` exactly when the
connection succeeded, the dump neither raised nor exited non-zero, and the
fetch succeeded; `list_databases` runs `ssh.close()` exactly when the
listing command exited with status `0`.  On the non-zero-status and
exception paths the session is leaked to the runtime, not closed. -/
theorem sessionClose_only_on_success (env : JobEnv) (lenv : ListEnv) :
    (Ev.sessionClose ∈ (perform_backup env).1 ↔
      (env.localDirExists = true ∨ env.makedirsOk = true) ∧
      env.connectOk = true ∧ env.execDumpRaises = false ∧
      env.dumpExit = 0 ∧ env.fetchOk = true) ∧
    (Ev.sessionClose ∈ (list_databases lenv).1 ↔
      lenv.connectOk = true ∧ lenv.execRaises = false ∧
      lenv.exitStatus = 0) :=
  ⟨sessionClose_perform_backup env, sessionClose_list_databases lenv⟩

/-- Claim C6: whatever the remote behaviour of each target's dump command
and artifact transfer (any exit status, any raising step), no exception
escapes any target's `perform_backup`, the cycle loop is never aborted,
and every target in the cycle reaches its own `clean_old_backups` call —
provided only that the non-dump, non-transfer steps (local `makedirs`,
each target's cleaner) do not themselves raise. -/
theorem job_failure_does_not_block (now days : Int) (jenv : String → JobEnv)
    (fs : String → Option (List FSEntry)) (dbs : List String)
    (hdir : ∀ db ∈ dbs,
      (jenv db).localDirExists = true ∨ (jenv db).makedirsOk = true)
    (hclean : ∀ db ∈ dbs, (clean_old_backups (fs db) now days).2 = none) :
    (∀ db ∈ dbs, (perform_backup (jenv db)).2 ≠ JobOutcome.raised) ∧
    (run_targets now days jenv fs dbs).2 = false ∧
    ∀ db ∈ dbs,
      (db, Ev.cleanInvoked) ∈ (run_targets now days jenv fs dbs).1 := by
  refine ⟨fun db hdb => perform_backup_not_raised _ (hdir db hdb), ?_⟩
  induction dbs with
  | nil => exact ⟨rfl, by simp⟩
  | cons db rest ih =>
      have hnr := perform_backup_not_raised (jenv db)
        (hdir db (List.mem_cons_self db rest))
      have hcl := hclean db (List.mem_cons_self db rest)
      have ihr := ih (fun d hd => hdir d (List.mem_cons_of_mem db hd))
        (fun d hd => hclean d (List.mem_cons_of_mem db hd))
      simp only [run_targets]
      rw [if_neg hnr, hcl]
      refine ⟨ihr.1, ?_⟩
      intro d hd
      rcases List.mem_cons.mp hd with hdq | hdr
      · subst hdq
        simp [List.mem_append]
      · have hmem := ihr.2 d hdr
        simp only [List.mem_append, List.mem_cons]
        tauto

/-- Claim C6, witness: target `"a"`'s dump fails with status `1`, target
`"b"`'s job succeeds; both targets complete their loop iteration. -/
theorem job_failure_does_not_block_witness :
    (∀ db ∈ ["a", "b"],
      (perform_backup ((fun d => if d = "a" then
          (⟨true, true, true, false, 1, true⟩ : JobEnv)
        else ⟨true, true, true, false, 0, true⟩) db)).2 ≠
        JobOutcome.raised) ∧
    (run_targets 864000 4 (fun d => if d = "a" then
        (⟨true, true, true, false, 1, true⟩ : JobEnv)
      else ⟨true, true, true, false, 0, true⟩) (fun _ => none)
      ["a", "b"]).2 = false ∧
    ∀ db ∈ ["a", "b"],
      (db, Ev.cleanInvoked) ∈ (run_targets 864000 4 (fun d => if d = "a" then
          (⟨true, true, true, false, 1, true⟩ : JobEnv)
        else ⟨true, true, true, false, 0, true⟩) (fun _ => none)
        ["a", "b"]).1 :=
  job_failure_does_not_block 864000 4 _ _ ["a", "b"] (by decide) (by decide)

/-- Claim C7: when the catalog listing cannot be obtained — the listing
command exits non-zero, or the connect/exec step raises —
`list_databases` returns `[]` after logging (the exit status and stderr on
the non-zero path, the caught exception otherwise), and the calling cycle
runs zero backup jobs and is not aborted. -/
theorem list_databases_failure_empty (lenv : ListEnv) (now days : Int)
    (jenv : String → JobEnv) (fs : String → Option (List FSEntry))
    (hfail : lenv.connectOk = false ∨ lenv.execRaises = true ∨
      lenv.exitStatus ≠ 0) :
    (list_databases lenv).2 = [] ∧
    (lenv.connectOk = true → lenv.execRaises = false →
      Ev.logError ∈ (list_databases lenv).1) ∧
    (lenv.connectOk = false ∨ lenv.execRaises = true →
      Ev.logCaught ∈ (list_databases lenv).1) ∧
    (run_cycle now days lenv jenv fs).2.1 = [] ∧
    (run_cycle now days lenv jenv fs).2.2 = false := by
  obtain ⟨co, er, es, so⟩ := lenv
  cases co <;> cases er <;>
    simp_all [list_databases, run_cycle, run_targets]

/-- Claim C7, witness: the listing command exits with status `1`. -/
theorem list_databases_failure_empty_witness :
    (list_databases ⟨true, false, 1, "ignored"⟩).2 = [] ∧
    ((true : Bool) = true → (false : Bool) = false →
      Ev.logError ∈ (list_databases ⟨true, false, 1, "ignored"⟩).1) ∧
    ((true : Bool) = false ∨ (false : Bool) = true →
      Ev.logCaught ∈ (list_databases ⟨true, false, 1, "ignored"⟩).1) ∧
    (run_cycle 864000 4 ⟨true, false, 1, "ignored"⟩
      (fun _ => ⟨true, true, true, false, 0, true⟩) (fun _ => none)).2.1 = [] ∧
    (run_cycle 864000 4 ⟨true, false, 1, "ignored"⟩
      (fun _ => ⟨true, true, true, false, 0, true⟩) (fun _ => none)).2.2 =
      false :=
  list_databases_failure_empty ⟨true, false, 1, "ignored"⟩ 864000 4 _ _
    (by decide)

/-- Claim C10: in the per-target loop shared by all three modes,
`clean_old_backups` is invoked for a target's destination directly after
its `perform_backup` returns, whatever the dump's exit status or the
transfer's behaviour (the job swallows all errors inside its `try`); the
only proviso is that the local destination directory exists or can be
created, since `os.makedirs` runs outside the `try`. -/
theorem clean_invoked_after_job (now days : Int) (jenv : String → JobEnv)
    (fs : String → Option (List FSEntry)) (db : String) (rest : List String)
    (hdir : (jenv db).localDirExists = true ∨ (jenv db).makedirsOk = true) :
    ∃ tail, (run_targets now days jenv fs (db :: rest)).1 =
      ((perform_backup (jenv db)).1.map (fun e => (db, e))) ++
        (db, Ev.cleanInvoked) :: tail := by
  have hnr := perform_backup_not_raised (jenv db) hdir
  simp only [run_targets]
  rw [if_neg hnr]
  cases hc : (clean_old_backups (fs db) now days).2 with
  | none => exact ⟨(run_targets now days jenv fs rest).1, by simp⟩
  | some x => exact ⟨[], by simp⟩

/-- Claim C10, witness: a cycle whose only target's dump fails with status
`1` (so no artifact is produced) still invokes the cleaner right after the
job, enabling deletion of aged files in an artifact-less cycle. -/
theorem clean_invoked_after_job_witness :
    ∃ tail, (run_targets 864000 4
        (fun _ => (⟨true, true, true, false, 1, true⟩ : JobEnv))
        (fun _ => none) ["a"]).1 =
      ((perform_backup ⟨true, true, true, false, 1, true⟩).1.map
        (fun e => ("a", e))) ++ ("a", Ev.cleanInvoked) :: tail :=
  clean_invoked_after_job 864000 4 _ _ "a" [] (Or.inl rfl)

end PBM
